import Mathlib

/-!
Verification development for the gitbook2pdf crawler (`src/main.py`).

The Python source is shallowly embedded: pure string manipulation is
translated to Lean functions over `String`/`List Char`; the BeautifulSoup
document tree becomes the inductive type `Node`; the stateful crawl
(visited-URL set, accumulated pages) becomes explicit state passing, with
the worker pool modelled as an arbitrary completion order (a permutation
of the deduplicated TOC) of atomically executed tasks; network fetches and
image downloads are oracles passed as function parameters.
-/

namespace G2P

/-- Python whitespace as used by `str.split()` / `str.strip()`
    (restricted to the ASCII whitespace characters). -/
def pyIsSpace (c : Char) : Bool :=
  c = ' ' || c = '\t' || c = '\n' || c = '\r' || c = '\x0b' || c = '\x0c'

/-- `str.strip()` on a character list. -/
def stripChars (l : List Char) : List Char :=
  ((l.dropWhile pyIsSpace).reverse.dropWhile pyIsSpace).reverse

/-- `str.strip()`. -/
def pyStrip (s : String) : String := String.mk (stripChars s.toList)

/-- ASCII `str.lower()` on one character. -/
def pyLowerChar (c : Char) : Char :=
  if 'A' ≤ c && c ≤ 'Z' then Char.ofNat (c.toNat + 32) else c

/-- Scanning loop of `str.replace`: while `skip > 0` the current
    character belongs to an already-replaced pattern occurrence and is
    consumed silently; at `skip = 0` a pattern match emits the
    replacement and schedules `pat.length - 1` further characters for
    consumption. -/
def replaceGo (pat rep : List Char) : Nat → List Char → List Char
  | _, [] => []
  | Nat.succ k, _ :: rest => replaceGo pat rep k rest
  | 0, c :: rest =>
    if pat.isPrefixOf (c :: rest) then
      rep ++ replaceGo pat rep (pat.length - 1) rest
    else
      c :: replaceGo pat rep 0 rest

/-- `str.replace(pat, rep)` on character lists: replace every
    (non-overlapping, left-to-right) occurrence of `pat` by `rep`.
    An empty pattern leaves the subject unchanged (all patterns used by
    the source are non-empty). -/
def replaceChars (pat rep : List Char) (subject : List Char) : List Char :=
  if pat.isEmpty then subject else replaceGo pat rep 0 subject

/-- Python `pat in s` (substring occurrence test). -/
def subOccurs (pat : List Char) (s : List Char) : Bool :=
  pat.isPrefixOf s ||
    (match s with
     | [] => false
     | _ :: rest => subOccurs pat rest)

/-- `str.split()` (split on whitespace runs, dropping empty pieces). -/
def splitWs (s : String) : List String :=
  ((s.toList.splitOnP pyIsSpace).filter (fun w => !w.isEmpty)).map String.mk

/-- `s.startswith((p₁, …, pₙ))`. -/
def startsWithAny (s : String) (ps : List String) : Bool :=
  ps.any (fun p => p.toList.isPrefixOf s.toList)

/-- Model of `urllib.parse.urljoin(base, rel)` for the URL shapes this
    program exercises: an absolute `http(s)` URL is returned unchanged, a
    leading `./` is elided, and any other relative href is resolved
    against the (already `rstrip('/')`-ed) base URL. -/
def urljoin (base rel : String) : String :=
  if startsWithAny rel ["http"] then rel
  else if startsWithAny rel ["./"] then base ++ "/" ++ (rel.drop 2)
  else base ++ "/" ++ rel

/-- The Python values that reach `_similar_text`: `None`, strings, and
    (defensively, per its `str()` coercion) integers. -/
inductive PyVal where
  | pnone : PyVal
  | pstr : String → PyVal
  | pint : Int → PyVal
deriving Repr, DecidableEq

/-- Python truthiness for the values of `PyVal`. -/
def PyVal.truthy : PyVal → Bool
  | .pnone => false
  | .pstr s => !s.isEmpty
  | .pint n => n ≠ 0

/-- Python `str()` on a `PyVal`. -/
def PyVal.toStr : PyVal → String
  | .pnone => "None"
  | .pstr s => s
  | .pint n => toString n

/-- The `cn_nums` mapping of `_similar_text` (`src/main.py` lines
    272-276), in dict insertion order. -/
def cn_nums : List (String × String) :=
  [("零", "0"), ("一", "1"), ("二", "2"), ("三", "3"), ("四", "4"),
   ("五", "5"), ("六", "6"), ("七", "7"), ("八", "8"), ("九", "9"),
   ("十", "10"), ("百", "100"), ("千", "1000"), ("万", "10000")]

/-- The title-token list removed by `normalize_text` (line 287). -/
def chapterTokens : List String :=
  ["第", "章", "chapter", "section", "part"]

/-- `normalize_text` nested inside `_similar_text` (lines 278-291):
    lower-case, drop all whitespace, substitute CJK numerals, remove
    chapter/section tokens, strip. -/
def normalize_text (text : String) : String :=
  let t := (text.toList.map pyLowerChar).filter (fun c => !pyIsSpace c)
  let t := cn_nums.foldl (fun s p => replaceChars p.1.toList p.2.toList s) t
  let t := chapterTokens.foldl (fun s p => replaceChars p.toList [] s) t
  String.mk (stripChars t)

/-- `GitbookScraper._similar_text` (lines 252-306).  Falsy input (None,
    empty string, zero) returns `false`; other input is coerced with
    `str()`; the two normalized strings must be non-empty and equal. -/
def similar_text (t1 t2 : PyVal) : Bool :=
  if !t1.truthy || !t2.truthy then false
  else
    let n1 := normalize_text t1.toStr
    let n2 := normalize_text t2.toStr
    if n1.isEmpty || n2.isEmpty then false
    else n1 == n2

/-- A parsed HTML node, the typed counterpart of a BeautifulSoup tag or
    string: an element carries its tag name, attribute list, and
    children. -/
inductive Node where
  | element : String → List (String × String) → List Node → Node
  | text : String → Node

/-- A parsed document (the BeautifulSoup object): a forest of top-level
    nodes. -/
structure Doc where
  children : List Node

/-- Tag name of a node (`None` for a text node). -/
def Node.tag? : Node → Option String
  | .element t _ _ => some t
  | .text _ => none

/-- `tag.get(key)`: attribute lookup. -/
def getAttr (n : Node) (k : String) : Option String :=
  match n with
  | .element _ attrs _ => (attrs.find? (fun p => p.1 == k)).map Prod.snd
  | .text _ => none

/-- Set (or add) an attribute, as bs4 item assignment does. -/
def setAttr (n : Node) (k v : String) : Node :=
  match n with
  | .element t attrs cs =>
    if (attrs.find? (fun p => p.1 == k)).isSome then
      .element t (attrs.map (fun p => if p.1 == k then (p.1, v) else p)) cs
    else
      .element t (attrs ++ [(k, v)]) cs
  | .text s => .text s

/-- The multi-valued `class` attribute, whitespace-split as bs4 does. -/
def classesOf (n : Node) : List String :=
  match getAttr n "class" with
  | some s => splitWs s
  | none => []

/-- bs4 `class_=c` matching: `c` is one of the element's classes. -/
def hasClass (n : Node) (c : String) : Bool :=
  (classesOf n).contains c

mutual

/-- Pre-order list of a node and all its descendants, each paired with
    its ancestor chain (nearest ancestor first); `anc` is the chain of
    the node itself. -/
def nodeWithAnc (n : Node) (anc : List Node) : List (Node × List Node) :=
  match n with
  | .element _ _ cs => (n, anc) :: forestWithAnc cs (n :: anc)
  | .text _ => [(n, anc)]

/-- `nodeWithAnc` over a forest. -/
def forestWithAnc (ns : List Node) (anc : List Node) : List (Node × List Node) :=
  match ns with
  | [] => []
  | c :: cs => nodeWithAnc c anc ++ forestWithAnc cs anc

end

mutual

/-- The strings of all text descendants, in document order. -/
def textsOf (n : Node) : List String :=
  match n with
  | .text s => [s]
  | .element _ _ cs => textsOfForest cs

/-- `textsOf` over a forest. -/
def textsOfForest (ns : List Node) : List String :=
  match ns with
  | [] => []
  | c :: cs => textsOf c ++ textsOfForest cs

end

/-- `tag.get_text(strip=True)`: every contained string stripped, then
    concatenated. -/
def getTextStrip (n : Node) : String :=
  String.join ((textsOf n).map pyStrip)

/-- `soup.find(p)`: the first matching element in document order, with
    its ancestor chain. -/
def findWithAnc (d : Doc) (p : Node → Bool) : Option (Node × List Node) :=
  (forestWithAnc d.children []).find? (fun x => p x.1)

/-- The navigation-container search shared by both `extract_toc`
    definitions (lines 327 and 385):
    `soup.find('nav') or soup.find('div', class_='summary') or
     soup.find('ul', class_='summary')`. -/
def findNav (d : Doc) : Option (Node × List Node) :=
  (findWithAnc d (fun n => n.tag? == some "nav")) <|>
  (findWithAnc d (fun n => n.tag? == some "div" && hasClass n "summary")) <|>
  (findWithAnc d (fun n => n.tag? == some "ul" && hasClass n "summary"))

/-- One table-of-contents entry, `{'title': …, 'href': …, 'level': …}`. -/
structure TocEntry where
  title : String
  href : String
  level : Nat
deriving Repr, DecidableEq

/-- The level computation shared by both `extract_toc` definitions
    (lines 346-351 and 399-405): walk the ancestors of the link until a
    `nav` element (or the document top), counting `li`/`ul` elements. -/
def levelOf (anc : List Node) : Nat :=
  ((anc.takeWhile (fun n => n.tag? != some "nav")).filter
    (fun n => n.tag? == some "li" || n.tag? == some "ul")).length

/-- Link loop of the first (shadowed) `extract_toc` definition (lines
    330-360): skip missing/empty hrefs and hrefs starting with `#`,
    `http`, `javascript:` or `mailto:`; skip empty titles and hrefs
    already seen. -/
def tocLoopFirst (anchors : List (Node × List Node)) (seen : List String) :
    List TocEntry :=
  match anchors with
  | [] => []
  | (a, anc) :: rest =>
    match getAttr a "href" with
    | none => tocLoopFirst rest seen
    | some href =>
      if href.isEmpty then tocLoopFirst rest seen
      else if startsWithAny href ["#", "http", "javascript:", "mailto:"] then
        tocLoopFirst rest seen
      else if (getTextStrip a).isEmpty || seen.contains href then
        tocLoopFirst rest seen
      else
        ⟨getTextStrip a, href, levelOf anc⟩ :: tocLoopFirst rest (seen ++ [href])

/-- Link loop of the second `extract_toc` definition (lines 388-411),
    the one that is effective at run time: only `#` and `http` prefixes
    are skipped. -/
def tocLoop (anchors : List (Node × List Node)) (seen : List String) :
    List TocEntry :=
  match anchors with
  | [] => []
  | (a, anc) :: rest =>
    match getAttr a "href" with
    | none => tocLoop rest seen
    | some href =>
      if href.isEmpty then tocLoop rest seen
      else if startsWithAny href ["#", "http"] then tocLoop rest seen
      else if (getTextStrip a).isEmpty || seen.contains href then
        tocLoop rest seen
      else
        ⟨getTextStrip a, href, levelOf anc⟩ :: tocLoop rest (seen ++ [href])

/-- The anchors (`nav.find_all('a')`) of the located navigation
    container, with their full ancestor chains. -/
def navAnchors (d : Doc) : List (Node × List Node) :=
  match findNav d with
  | none => []
  | some (nav, anc) =>
    (nodeWithAnc nav anc).filter (fun x => x.1.tag? == some "a")

/-- The first `GitbookScraper.extract_toc` definition (lines 308-369).
    It is shadowed by the second definition of the same name and never
    runs; in the pure embedding its `try`/`except` wrappers are inert. -/
def extract_toc_first (d : Doc) : List TocEntry :=
  match findNav d with
  | none => []
  | some _ => tocLoopFirst (navAnchors d) []

/-- The second `GitbookScraper.extract_toc` definition (lines 371-413),
    the one Python retains. -/
def extract_toc (d : Doc) : List TocEntry :=
  match findNav d with
  | none => []
  | some _ => tocLoop (navAnchors d) []

mutual

/-- Image pass of `process_page_content` (lines 177-184): every `img`
    element with a non-empty `src` is handed to the image-download
    oracle `ri` (which models `download_image` plus the `os.path.relpath`
    call, returning the local relative path on success); on success the
    `src` attribute is rewritten, on failure it is left unchanged. -/
def imgNode (ri : String → Option String) : Node → Node
  | .element t attrs cs =>
    let n := Node.element t attrs (imgForest ri cs)
    if t == "img" then
      match getAttr n "src" with
      | some src =>
        if src.isEmpty then n
        else
          match ri src with
          | some lp => setAttr n "src" lp
          | none => n
      | none => n
    else n
  | .text s => .text s

/-- `imgNode` over a forest. -/
def imgForest (ri : String → Option String) : List Node → List Node
  | [] => []
  | c :: cs => imgNode ri c :: imgForest ri cs

end

mutual

/-- Link pass of `process_page_content` (lines 187-192): every `a`
    element whose `href` is non-empty and does not start with `http`,
    `#` or `mailto:` has its `href` resolved against the page's own
    URL. -/
def linkNode (page_url : String) : Node → Node
  | .element t attrs cs =>
    let n := Node.element t attrs (linkForest page_url cs)
    if t == "a" then
      match getAttr n "href" with
      | some href =>
        if href.isEmpty || startsWithAny href ["http", "#", "mailto:"] then n
        else setAttr n "href" (urljoin page_url href)
      | none => n
    else n
  | .text s => .text s

/-- `linkNode` over a forest. -/
def linkForest (page_url : String) : List Node → List Node
  | [] => []
  | c :: cs => linkNode page_url c :: linkForest page_url cs

end

/-- The navigation-chrome predicate of lines 195-196: a `nav` or `div`
    element one of whose classes is `summary`, `book-summary` or
    `table-of-contents`. -/
def isChrome (n : Node) : Bool :=
  (n.tag? == some "nav" || n.tag? == some "div") &&
    (classesOf n).any
      (fun c => ["summary", "book-summary", "table-of-contents"].contains c)

mutual

/-- Chrome-removal pass (`decompose`, line 196) on one node. -/
def chromeNode : Node → Node
  | .element t a cs => .element t a (chromeForest cs)
  | .text s => .text s

/-- Chrome-removal pass over a forest. -/
def chromeForest : List Node → List Node
  | [] => []
  | c :: cs => if isChrome c then chromeForest cs else chromeNode c :: chromeForest cs

end

/-- The `content_selectors` list of lines 203-211, as predicates tried
    in order. -/
def content_selectors : List (Node → Bool) :=
  [fun n => n.tag? == some "article",
   fun n => n.tag? == some "main",
   fun n => n.tag? == some "div" && hasClass n "content",
   fun n => n.tag? == some "div" && hasClass n "article-content",
   fun n => n.tag? == some "div" && hasClass n "markdown-section",
   fun n => n.tag? == some "div" && getAttr n "role" == some "main",
   fun n => n.tag? == some "body"]

/-- The selector loop of lines 213-217: first selector that finds a
    node wins. -/
def findMainFrom : List (Node → Bool) → Doc → Option Node
  | [], _ => none
  | p :: ps, d =>
    match findWithAnc d p with
    | some (n, _) => some n
    | none => findMainFrom ps d

/-- The heading tag names of lines 225 and 239. -/
def headingTags : List String := ["h1", "h2", "h3", "h4", "h5", "h6"]

/-- The class test of lines 230-234: the element's classes are joined
    with spaces and each marker is looked for as a substring. -/
def badClass (n : Node) : Bool :=
  let classes := classesOf n
  if classes.isEmpty then false
  else
    let class_str := " ".intercalate classes
    ["summary", "book-summary", "table-of-contents", "header", "heading"].any
      (fun c => subOccurs c.toList class_str.toList)

/-- Whether the cleanup loop of lines 225-244 decomposes element `n`:
    it must be a `nav`, `div` or heading element; it is removed when its
    class string contains a marker, or when it is a heading whose text
    is `_similar_text` to the (truthy) known title. -/
def removedByStep5 (title? : Option String) (n : Node) : Bool :=
  match n.tag? with
  | none => false
  | some t =>
    if (["nav", "div"] ++ headingTags).contains t then
      if badClass n then true
      else if headingTags.contains t then
        match title? with
        | some ttl =>
          (!ttl.isEmpty) && similar_text (.pstr (getTextStrip n)) (.pstr ttl)
        | none => false
      else false
    else false

mutual

/-- The cleanup of lines 225-244 applied below a kept node (the
    selected main-content root itself is never removed, since `find_all`
    yields descendants only). -/
def cleanNode (title? : Option String) : Node → Node
  | .element t attrs cs => .element t attrs (cleanForest title? cs)
  | .text s => .text s

/-- `cleanNode` over a forest. -/
def cleanForest (title? : Option String) : List Node → List Node
  | [] => []
  | c :: cs =>
    if removedByStep5 title? c then cleanForest title? cs
    else cleanNode title? c :: cleanForest title? cs

end

/-- Attribute serialization for `str(tag)`. -/
def renderAttrs (attrs : List (String × String)) : String :=
  attrs.foldl (fun s p => s ++ " " ++ p.1 ++ "=" ++ "\"" ++ p.2 ++ "\"") ""

mutual

/-- `str(tag)`: markup serialization of a node. -/
def renderNode : Node → String
  | .text s => s
  | .element t attrs cs =>
    "<" ++ t ++ renderAttrs attrs ++ ">" ++ renderForest cs ++ "</" ++ t ++ ">"

/-- `renderNode` over a forest. -/
def renderForest : List Node → String
  | [] => ""
  | c :: cs => renderNode c ++ renderForest cs

end

/-- `GitbookScraper.process_page_content` (lines 164-250): image pass,
    link pass, chrome removal, main-content selection, cleanup, and
    serialization.  In the pure embedding no exception is ever raised,
    so the `except` fallbacks of lines 248-250 are unreachable. -/
def process_page_content (ri : String → Option String) (d : Doc)
    (page_url : String) (title? : Option String) : String :=
  let d1 : Doc := ⟨chromeForest (linkForest page_url (imgForest ri d.children))⟩
  match findMainFrom content_selectors d1 with
  | none => "<p>未找到页面内容</p>"
  | some mainc => renderNode (cleanNode title? mainc)

/-- One scraped page, `{'title': …, 'url': …, 'content': …, 'level': …}`. -/
structure Page where
  title : String
  url : String
  content : String
  level : Nat
deriving Repr, DecidableEq

/-- The scraper's shared state during the fetch phase: the VisitedSet
    (`self.visited_urls`) and the accumulated result pages
    (`self.pages`).  `requests` is an observational log recording every
    URL for which a network request is actually issued (the
    `session.get` of line 101); the source keeps no such list, but every
    theorem about "fetching a URL at most once" is a statement about
    exactly this sequence of calls. -/
structure ScrapeSt where
  visited : List String
  requests : List String
  pages : List Page
deriving Repr, DecidableEq

/-- The URL normalization at the top of `get_page` (lines 91-92):
    resolve a non-`http` URL against the base. -/
def normUrl (base url0 : String) : String :=
  if startsWithAny url0 ["http"] then url0 else urljoin base url0

/-- `GitbookScraper.get_page` (lines 81-111): resolve a non-`http` URL
    against the base, return `None` without requesting when the URL was
    already visited, otherwise request it via the network oracle
    `fetch`; only a successful request inserts the URL into the
    VisitedSet. -/
def get_page (fetch : String → Option Doc) (base : String) (st : ScrapeSt)
    (url0 : String) : Option Doc × ScrapeSt :=
  if st.visited.contains (normUrl base url0) then (none, st)
  else
    match fetch (normUrl base url0) with
    | some d =>
      (some d, { st with visited := st.visited ++ [normUrl base url0],
                         requests := st.requests ++ [normUrl base url0] })
    | none => (none, { st with requests := st.requests ++ [normUrl base url0] })

/-- The placeholder content emitted for an unfetchable page (lines 441
    and 453). -/
def placeholderContent (u : String) : String :=
  "<p>无法获取页面内容: " ++ u ++ "</p>"

/-- The absolute URL a TOC entry's page is recorded under:
    `page_url = urljoin(self.base_url, href)` with the stripped href
    (line 430). -/
def resolveUrl (base : String) (e : TocEntry) : String :=
  urljoin base (pyStrip e.href)

/-- The URL `get_page` actually requests for a TOC entry: `page_url`,
    re-resolved once more by line 92 when it is not absolute. -/
def finalUrl (base : String) (e : TocEntry) : String :=
  normUrl base (resolveUrl base e)

/-- The Page a worker task records for TOC entry `e` (lines 437-443 and
    459-465), parameterized by its content. -/
def mkPage (base : String) (e : TocEntry) (content : String) : Page :=
  ⟨pyStrip e.title, resolveUrl base e, content, e.level⟩

/-- `GitbookScraper._download_page` (lines 415-468) as one atomically
    executed worker task: skip entries whose stripped title or href is
    empty, resolve the URL, fetch, and append exactly one Page — a
    placeholder when the fetch returned nothing, the processed content
    (with `title=None`, line 450) otherwise. -/
def download_page (fetch : String → Option Doc) (ri : String → Option String)
    (base : String) (st : ScrapeSt) (item : TocEntry) : ScrapeSt :=
  if (pyStrip item.title).isEmpty || (pyStrip item.href).isEmpty then st
  else
    match get_page fetch base st (resolveUrl base item) with
    | (none, st') =>
      { st' with pages :=
          st'.pages ++
            [mkPage base item (placeholderContent (resolveUrl base item))] }
    | (some d, st') =>
      { st' with pages :=
          st'.pages ++
            [mkPage base item
              (process_page_content ri d (resolveUrl base item) none)] }

/-- First phase of a worker task: `get_page`'s VisitedSet membership
    test (line 95), an unguarded read of the shared set.  `visited_urls`
    has no lock (only `pages_lock` exists), and this read and the
    insertion of line 103 straddle the blocking `session.get` call, so
    under the width-3 pool another task may run between them. -/
def taskCheck (base : String) (st : ScrapeSt) (item : TocEntry) : Bool :=
  st.visited.contains (finalUrl base item)

/-- Remainder of a worker task after the VisitedSet check, taking the
    (possibly stale) check result: the empty-title/href skip of
    `_download_page` (lines 422-427), then either the already-visited
    placeholder, or the network request of line 101 (logged in
    `requests`) with the on-success VisitedSet insertion of line 103 and
    the lock-protected page append (lines 437-465).  Running two tasks
    as check₁; check₂; phase2₁; phase2₂ is a genuine schedule of the
    pool in which both checks read the state before either insertion. -/
def taskPhase2 (fetch : String → Option Doc) (ri : String → Option String)
    (base : String) (st : ScrapeSt) (item : TocEntry)
    (alreadyVisited : Bool) : ScrapeSt :=
  if (pyStrip item.title).isEmpty || (pyStrip item.href).isEmpty then st
  else if alreadyVisited then
    { st with pages :=
        st.pages ++ [mkPage base item (placeholderContent (resolveUrl base item))] }
  else
    match fetch (finalUrl base item) with
    | some d =>
      { st with visited := st.visited ++ [finalUrl base item],
                requests := st.requests ++ [finalUrl base item],
                pages := st.pages ++
                  [mkPage base item
                    (process_page_content ri d (resolveUrl base item) none)] }
    | none =>
      { st with requests := st.requests ++ [finalUrl base item],
                pages := st.pages ++
                  [mkPage base item (placeholderContent (resolveUrl base item))] }

/-- The TOC-deduplication loop of `scrape` (lines 531-548): drop
    entries with blank stripped title or href, then keep only first
    occurrences by stripped title and by stripped raw href. -/
def filterLoop : List TocEntry → List String → List String → List TocEntry
  | [], _, _ => []
  | e :: rest, seenT, seenH =>
    if (pyStrip e.title).isEmpty || (pyStrip e.href).isEmpty then
      filterLoop rest seenT seenH
    else if seenT.contains (pyStrip e.title) || seenH.contains (pyStrip e.href) then
      filterLoop rest seenT seenH
    else
      e :: filterLoop rest (seenT ++ [pyStrip e.title]) (seenH ++ [pyStrip e.href])

/-- `filtered_toc` as computed by `scrape`. -/
def filter_toc (toc : List TocEntry) : List TocEntry :=
  filterLoop toc [] []

/-- The parallel fetch phase (lines 550-553) with each worker task run
    ATOMICALLY, in an arbitrary completion order `order` (a permutation
    of the deduplicated TOC).  This serialization hides the unlocked
    check-then-add race inside `get_page` (see `taskCheck`/`taskPhase2`
    for the split model exhibiting it), so it is used only for results
    that are insensitive to it: page counts, the per-entry page fields,
    and the post-phase sort. -/
def run_tasks (fetch : String → Option Doc) (ri : String → Option String)
    (base : String) : List TocEntry → ScrapeSt → ScrapeSt
  | [], st => st
  | e :: rest, st => run_tasks fetch ri base rest (download_page fetch ri base st e)

/-- Last index `≥ i` in `toc` whose resolved raw href equals `u`;
    building the `url_to_index` dict by ascending enumeration with
    overwriting assignment (lines 565-568) makes the LAST matching index
    win. -/
def lastIdxFrom (base : String) (u : String) : List TocEntry → Nat → Option Nat
  | [], _ => none
  | e :: es, i =>
    match lastIdxFrom base u es (i + 1) with
    | some j => some j
    | none => if urljoin base e.href == u then some i else none

/-- `url_to_index.get(u)` of lines 565-571.  Note line 567 resolves the
    UNSTRIPPED `item['href']`. -/
def url_to_index (base : String) (toc : List TocEntry) (u : String) : Option Nat :=
  lastIdxFrom base u toc 0

/-- Sort-key comparison: `url_to_index.get(url, float('inf'))`, with
    `none` playing `inf`. -/
def okeyLt : Option Nat → Option Nat → Bool
  | some a, some b => a < b
  | some _, none => true
  | none, _ => false

/-- Stable insertion: the new element goes after every element whose
    key is not strictly greater. -/
def insSortedBy (lt : Page → Page → Bool) (x : Page) : List Page → List Page
  | [] => [x]
  | y :: ys => if lt x y then x :: y :: ys else y :: insSortedBy lt x ys

/-- `self.pages.sort(key=…)` (line 571): a stable sort by key.  Python's
    sort is stable, and any stable sort is extensionally this insertion
    sort. -/
def pySortByKey (key : Page → Option Nat) (l : List Page) : List Page :=
  l.foldl (fun acc x => insSortedBy (fun p q => okeyLt (key p) (key q)) x acc) []

/-- The fetch-and-reorder phase of `scrape` (lines 531-575): dedup the
    TOC, run the worker tasks in completion order `order` starting from
    VisitedSet `v0`, and sort the accumulated pages by TOC position of
    their URL. -/
def scrape_phase (fetch : String → Option Doc) (ri : String → Option String)
    (base : String) (toc : List TocEntry) (order : List TocEntry)
    (v0 : List String) : List Page :=
  let ftoc := filter_toc toc
  let st := run_tasks fetch ri base order ⟨v0, [], []⟩
  pySortByKey (fun p => url_to_index base ftoc p.url) st.pages

/-- The exit-code decision of `main` (lines 844-862): `1` when no page
    was scraped, otherwise `0` exactly when the renderer produced the
    PDF. -/
def main_exit (pages : List Page) (render_ok : Bool) : Nat :=
  if pages.isEmpty then 1 else if render_ok then 0 else 1

/-- The CLI options parsed by `main` (lines 805-813) that matter here. -/
structure CliArgs where
  url : String
  output : String
  temp : Option String
  workers : Int
  verbose : Bool
  keep_temp : Bool
  proxy : Option String
deriving Repr, DecidableEq

/-- `GitbookScraper.__init__`'s `max_workers` parameter, default `3`
    (line 37); line 551 hands exactly this value to
    `ThreadPoolExecutor`. -/
def scraper_max_workers (mw : Int := 3) : Int := mw

/-- The scraper construction performed by `main` (line 841):
    `GitbookScraper(args.url, temp_dir, args.delay, proxy)` — the
    `max_workers` argument is omitted, so the default applies and
    `args.workers` is never consulted. -/
def main_pool_width (_args : CliArgs) : Int := scraper_max_workers

mutual

/-- Generic tree filter: keep exactly the element nodes satisfying `p`,
    recursing below kept nodes.  (Mathematical vocabulary for comparing
    cleanup passes; not itself source code.) -/
def keepNode (p : Node → Bool) : Node → Node
  | .element t a cs => .element t a (keepForest p cs)
  | .text s => .text s

/-- `keepNode` over a forest. -/
def keepForest (p : Node → Bool) : List Node → List Node
  | [] => []
  | c :: cs =>
    if p c then keepNode p c :: keepForest p cs else keepForest p cs

end

/-- First-occurrence deduplication relative to an already-seen list
    (vocabulary for the "first occurrence wins" property). -/
def dedupSeen : List String → List String → List String
  | [], _ => []
  | h :: t, seen =>
    if seen.contains h then dedupSeen t seen
    else h :: dedupSeen t (seen ++ [h])

/-- First-occurrence deduplication of a list of hrefs. -/
def dedupKeepFirst (l : List String) : List String := dedupSeen l []

/-- The raw hrefs of the nav links that pass `extract_toc`'s per-link
    filter (present, non-empty, no `#`/`http` prefix, non-empty title),
    in document order, duplicates included. -/
def candHrefs (d : Doc) : List String :=
  (navAnchors d).filterMap (fun x =>
    match getAttr x.1 "href" with
    | none => none
    | some href =>
      if href.isEmpty then none
      else if startsWithAny href ["#", "http"] then none
      else if (getTextStrip x.1).isEmpty then none
      else some href)

/-! ## Lemmas about the sort of line 571 -/

theorem okeyLt_asymm {a b : Option Nat} (h : okeyLt a b = true) :
    okeyLt b a = false := by
  cases a <;> cases b <;> simp_all [okeyLt] <;> omega

theorem okeyLt_trans {a b c : Option Nat} (h1 : okeyLt a b = true)
    (h2 : okeyLt b c = true) : okeyLt a c = true := by
  cases a <;> cases b <;> cases c <;> simp_all [okeyLt] <;> omega

theorem okeyLt_of_not_lt_of_ne {a b : Option Nat} (h1 : okeyLt b a = false)
    (h2 : a ≠ b) : okeyLt a b = true := by
  cases a <;> cases b <;> simp_all [okeyLt] <;> omega

theorem insSortedBy_perm (lt : Page → Page → Bool) (x : Page) :
    ∀ l : List Page, (insSortedBy lt x l).Perm (x :: l)
  | [] => List.Perm.refl _
  | y :: ys => by
    unfold insSortedBy
    by_cases h : lt x y = true
    · simp [h]
    · simp only [Bool.not_eq_true] at h
      simp only [h, Bool.false_eq_true, if_false]
      exact ((insSortedBy_perm lt x ys).cons y).trans (List.Perm.swap x y ys)

theorem insSortedBy_pairwise (key : Page → Option Nat) (x : Page) :
    ∀ l : List Page,
      l.Pairwise (fun p q => okeyLt (key q) (key p) = false) →
      (insSortedBy (fun p q => okeyLt (key p) (key q)) x l).Pairwise
        (fun p q => okeyLt (key q) (key p) = false)
  | [], _ => List.pairwise_singleton _ _
  | y :: ys, hp => by
    unfold insSortedBy
    rcases List.pairwise_cons.1 hp with ⟨hy, hys⟩
    by_cases h : okeyLt (key x) (key y) = true
    · simp only [h, if_true]
      refine List.pairwise_cons.2 ⟨?_, hp⟩
      intro z hz
      rcases List.mem_cons.1 hz with rfl | hz'
      · exact okeyLt_asymm h
      · -- key x < key y and ¬ key z < key y; if key z < key x then
        -- key z < key y, contradiction
        rcases hzy : okeyLt (key z) (key x) with _ | _
        · rfl
        · exact absurd (okeyLt_trans hzy h) (by simp [hy z hz'])
    · simp only [Bool.not_eq_true] at h
      simp only [h, Bool.false_eq_true, if_false]
      refine List.pairwise_cons.2 ⟨?_, insSortedBy_pairwise key x ys hys⟩
      intro z hz
      have hz' := (insSortedBy_perm (fun p q => okeyLt (key p) (key q)) x ys).mem_iff.1 hz
      rcases List.mem_cons.1 hz' with rfl | hz''
      · exact h
      · exact hy z hz''

theorem pySortByKey_go_perm (key : Page → Option Nat) :
    ∀ (l acc : List Page),
      (l.foldl (fun acc x =>
        insSortedBy (fun p q => okeyLt (key p) (key q)) x acc) acc).Perm
        (acc ++ l)
  | [], acc => by simp
  | x :: xs, acc => by
    simp only [List.foldl_cons]
    refine (pySortByKey_go_perm key xs _).trans ?_
    have h1 : (insSortedBy (fun p q => okeyLt (key p) (key q)) x acc ++ xs).Perm
        ((x :: acc) ++ xs) :=
      (insSortedBy_perm _ x acc).append_right xs
    refine h1.trans ?_
    simp only [List.cons_append]
    exact ((@List.perm_append_comm _ [x] acc).append_right xs).trans
      (by simpa using (@List.perm_append_comm _ acc (x :: xs)))

theorem pySortByKey_perm (key : Page → Option Nat) (l : List Page) :
    (pySortByKey key l).Perm l := by
  simpa using pySortByKey_go_perm key l []

theorem pySortByKey_go_pairwise (key : Page → Option Nat) :
    ∀ (l acc : List Page),
      acc.Pairwise (fun p q => okeyLt (key q) (key p) = false) →
      (l.foldl (fun acc x =>
        insSortedBy (fun p q => okeyLt (key p) (key q)) x acc) acc).Pairwise
        (fun p q => okeyLt (key q) (key p) = false)
  | [], _, h => h
  | x :: xs, acc, h => by
    simp only [List.foldl_cons]
    exact pySortByKey_go_pairwise key xs _ (insSortedBy_pairwise key x acc h)

theorem pySortByKey_pairwise (key : Page → Option Nat) (l : List Page) :
    (pySortByKey key l).Pairwise (fun p q => okeyLt (key q) (key p) = false) :=
  pySortByKey_go_pairwise key l [] (List.Pairwise.nil)

theorem eq_of_perm_of_strictSorted (key : Page → Option Nat)
    {l1 l2 : List Page} (hp : l1.Perm l2)
    (h1 : l1.Pairwise (fun p q => okeyLt (key p) (key q) = true))
    (h2 : l2.Pairwise (fun p q => okeyLt (key p) (key q) = true)) :
    l1 = l2 := by
  haveI : IsAntisymm Page (fun p q => okeyLt (key p) (key q) = true) :=
    ⟨fun a b h h' => absurd h' (by simp [okeyLt_asymm h])⟩
  exact List.eq_of_perm_of_sorted hp h1 h2

/-! ## Lemmas about `get_page`, `download_page` and `run_tasks` -/

theorem get_page_pages (fetch : String → Option Doc) (base : String)
    (st : ScrapeSt) (u : String) :
    ((get_page fetch base st u).2).pages = st.pages := by
  unfold get_page
  split
  · rfl
  · split <;> rfl

theorem get_page_none (fetch : String → Option Doc) (base : String)
    (st : ScrapeSt) (u : String) (h : fetch (normUrl base u) = none) :
    (get_page fetch base st u).1 = none := by
  unfold get_page
  split
  · rfl
  · split
    · simp_all
    · rfl

theorem download_page_pages (fetch : String → Option Doc)
    (ri : String → Option String) (base : String) (st : ScrapeSt)
    (e : TocEntry) (h1 : (pyStrip e.title).isEmpty = false)
    (h2 : (pyStrip e.href).isEmpty = false) :
    ∃ c : String,
      (download_page fetch ri base st e).pages = st.pages ++ [mkPage base e c]
      ∧ (fetch (finalUrl base e) = none →
          c = placeholderContent (resolveUrl base e)) := by
  unfold download_page
  simp only [h1, h2, Bool.or_self, Bool.false_eq_true, if_false]
  rcases hgp : get_page fetch base st (resolveUrl base e) with ⟨res, st'⟩
  have hpg : st'.pages = st.pages := by
    have := get_page_pages fetch base st (resolveUrl base e)
    rw [hgp] at this
    exact this
  cases res with
  | none =>
    exact ⟨placeholderContent (resolveUrl base e), by simp [hgp, hpg], fun _ => rfl⟩
  | some d =>
    refine ⟨process_page_content ri d (resolveUrl base e) none, by
      simp [hgp, hpg], fun hf => ?_⟩
    have := get_page_none fetch base st (resolveUrl base e) hf
    rw [hgp] at this
    simp at this

theorem run_tasks_pages (fetch : String → Option Doc)
    (ri : String → Option String) (base : String) :
    ∀ (order : List TocEntry) (st : ScrapeSt), order.Nodup →
      (∀ e ∈ order,
        (pyStrip e.title).isEmpty = false ∧ (pyStrip e.href).isEmpty = false) →
      ∃ c : TocEntry → String,
        (run_tasks fetch ri base order st).pages
          = st.pages ++ order.map (fun e => mkPage base e (c e))
        ∧ ∀ e ∈ order, fetch (finalUrl base e) = none →
            c e = placeholderContent (resolveUrl base e)
  | [], st, _, _ => ⟨fun _ => "", by simp [run_tasks], by simp⟩
  | e :: rest, st, hnd, hne => by
    have hme : e ∈ e :: rest := List.mem_cons_self e rest
    obtain ⟨c1, hc1, hc1p⟩ :=
      download_page_pages fetch ri base st e (hne e hme).1 (hne e hme).2
    obtain ⟨cr, hcr, hcrp⟩ :=
      run_tasks_pages fetch ri base rest (download_page fetch ri base st e)
        (List.Nodup.of_cons hnd)
        (fun x hx => hne x (List.mem_cons_of_mem e hx))
    have hniro : e ∉ rest := (List.nodup_cons.1 hnd).1
    refine ⟨fun x => if x = e then c1 else cr x, ?_, ?_⟩
    · show (run_tasks fetch ri base rest (download_page fetch ri base st e)).pages = _
      rw [hcr, hc1]
      have hmap : rest.map (fun x => mkPage base x (if x = e then c1 else cr x))
          = rest.map (fun x => mkPage base x (cr x)) := by
        apply List.map_congr_left
        intro x hx
        have : x ≠ e := fun hxe => hniro (hxe ▸ hx)
        simp [this]
      simp [hmap]
    · intro x hx hf
      rcases List.mem_cons.1 hx with rfl | hx'
      · simp [hc1p hf]
      · have : x ≠ e := fun hxe => hniro (hxe ▸ hx')
        simp [this, hcrp x hx' hf]

theorem download_page_pages_le (fetch : String → Option Doc)
    (ri : String → Option String) (base : String) (st : ScrapeSt)
    (e : TocEntry) :
    (download_page fetch ri base st e).pages.length ≤ st.pages.length + 1 := by
  unfold download_page
  split
  · omega
  · rcases hgp : get_page fetch base st (resolveUrl base e) with ⟨res, st'⟩
    have hpg : st'.pages = st.pages := by
      have := get_page_pages fetch base st (resolveUrl base e)
      rw [hgp] at this
      exact this
    cases res <;> simp [hgp, hpg]

theorem run_tasks_pages_le (fetch : String → Option Doc)
    (ri : String → Option String) (base : String) :
    ∀ (order : List TocEntry) (st : ScrapeSt),
      (run_tasks fetch ri base order st).pages.length
        ≤ st.pages.length + order.length
  | [], st => by simp [run_tasks]
  | e :: rest, st => by
    have h1 := run_tasks_pages_le fetch ri base rest (download_page fetch ri base st e)
    have h2 := download_page_pages_le fetch ri base st e
    show (run_tasks fetch ri base rest (download_page fetch ri base st e)).pages.length ≤ _
    simp only [List.length_cons]
    omega

theorem download_page_eq_phases (fetch : String → Option Doc)
    (ri : String → Option String) (base : String) (st : ScrapeSt)
    (item : TocEntry) :
    download_page fetch ri base st item
      = taskPhase2 fetch ri base st item (taskCheck base st item) := by
  unfold download_page taskPhase2 taskCheck get_page
  by_cases h0 : ((pyStrip item.title).isEmpty || (pyStrip item.href).isEmpty) = true
  · rw [if_pos h0, if_pos h0]
  · rw [if_neg h0, if_neg h0]
    by_cases hv : st.visited.contains (normUrl base (resolveUrl base item)) = true
    · rw [if_pos hv,
        if_pos (show st.visited.contains (finalUrl base item) = true from hv)]
    · rw [if_neg hv,
        if_neg (show ¬st.visited.contains (finalUrl base item) = true from hv)]
      cases hfet : fetch (normUrl base (resolveUrl base item)) with
      | none =>
        rw [show fetch (finalUrl base item) = none from hfet]
        rfl
      | some d =>
        rw [show fetch (finalUrl base item) = some d from hfet]
        rfl

/-! ## Lemmas about the TOC dedup of lines 531-548 -/

theorem filterLoop_sublist :
    ∀ (l : List TocEntry) (sT sH : List String), List.Sublist (filterLoop l sT sH) l
  | [], _, _ => List.Sublist.refl _
  | e :: rest, sT, sH => by
    unfold filterLoop
    split
    · exact (filterLoop_sublist rest sT sH).cons e
    · split
      · exact (filterLoop_sublist rest sT sH).cons e
      · exact (filterLoop_sublist rest (sT ++ [pyStrip e.title])
          (sH ++ [pyStrip e.href])).cons₂ e

theorem filterLoop_props :
    ∀ (l : List TocEntry) (sT sH : List String), ∀ e ∈ filterLoop l sT sH,
      (pyStrip e.title).isEmpty = false ∧ (pyStrip e.href).isEmpty = false
  | [], _, _ => by simp [filterLoop]
  | e :: rest, sT, sH => by
    unfold filterLoop
    split
    · exact filterLoop_props rest sT sH
    · split
      · exact filterLoop_props rest sT sH
      · rename_i hemp _
        intro x hx
        rcases List.mem_cons.1 hx with rfl | hx'
        · constructor
          · rcases h : (pyStrip x.title).isEmpty with _ | _
            · rfl
            · exact absurd (by simp [h]) hemp
          · rcases h : (pyStrip x.href).isEmpty with _ | _
            · rfl
            · exact absurd (by simp [h]) hemp
        · exact filterLoop_props rest _ _ x hx'

theorem filterLoop_titles :
    ∀ (l : List TocEntry) (sT sH : List String),
      ((filterLoop l sT sH).map (fun e => pyStrip e.title)).Nodup
      ∧ ∀ t ∈ (filterLoop l sT sH).map (fun e => pyStrip e.title), t ∉ sT
  | [], _, _ => by simp [filterLoop]
  | e :: rest, sT, sH => by
    unfold filterLoop
    split
    · exact filterLoop_titles rest sT sH
    · split
      · exact filterLoop_titles rest sT sH
      · rename_i hseen
        obtain ⟨hnd, hnin⟩ :=
          filterLoop_titles rest (sT ++ [pyStrip e.title]) (sH ++ [pyStrip e.href])
        have hTnotin : pyStrip e.title ∉
            (filterLoop rest (sT ++ [pyStrip e.title]) (sH ++ [pyStrip e.href])).map
              (fun e => pyStrip e.title) :=
          fun hmem => (hnin _ hmem) (List.mem_append_right _ (by simp))
        refine ⟨by simp only [List.map_cons, List.nodup_cons]; exact ⟨hTnotin, hnd⟩, ?_⟩
        intro t ht
        rcases List.mem_cons.1 ht with rfl | ht'
        · intro hmem
          exact hseen (by simp [List.contains, List.elem_iff, hmem])
        · exact fun hmem => (hnin t ht') (List.mem_append_left _ hmem)

theorem filterLoop_hrefs :
    ∀ (l : List TocEntry) (sT sH : List String),
      ((filterLoop l sT sH).map (fun e => pyStrip e.href)).Nodup
      ∧ ∀ t ∈ (filterLoop l sT sH).map (fun e => pyStrip e.href), t ∉ sH
  | [], _, _ => by simp [filterLoop]
  | e :: rest, sT, sH => by
    unfold filterLoop
    split
    · exact filterLoop_hrefs rest sT sH
    · split
      · exact filterLoop_hrefs rest sT sH
      · rename_i hseen
        obtain ⟨hnd, hnin⟩ :=
          filterLoop_hrefs rest (sT ++ [pyStrip e.title]) (sH ++ [pyStrip e.href])
        have hTnotin : pyStrip e.href ∉
            (filterLoop rest (sT ++ [pyStrip e.title]) (sH ++ [pyStrip e.href])).map
              (fun e => pyStrip e.href) :=
          fun hmem => (hnin _ hmem) (List.mem_append_right _ (by simp))
        refine ⟨by simp only [List.map_cons, List.nodup_cons]; exact ⟨hTnotin, hnd⟩, ?_⟩
        intro t ht
        rcases List.mem_cons.1 ht with rfl | ht'
        · intro hmem
          exact hseen (by simp [List.contains, List.elem_iff, hmem])
        · exact fun hmem => (hnin t ht') (List.mem_append_left _ hmem)

theorem filter_toc_entry_nodup (toc : List TocEntry) :
    (filter_toc toc).Nodup := by
  have h := (filterLoop_titles toc [] []).1
  exact h.of_map

theorem filterLoop_id :
    ∀ (l : List TocEntry) (sT sH : List String),
      (∀ e ∈ l, (pyStrip e.title).isEmpty = false
        ∧ (pyStrip e.href).isEmpty = false) →
      l.Pairwise (fun a b => pyStrip a.title ≠ pyStrip b.title) →
      l.Pairwise (fun a b => pyStrip a.href ≠ pyStrip b.href) →
      (∀ e ∈ l, pyStrip e.title ∉ sT) →
      (∀ e ∈ l, pyStrip e.href ∉ sH) →
      filterLoop l sT sH = l
  | [], _, _, _, _, _, _, _ => rfl
  | e :: rest, sT, sH, hne, hpt, hph, hnT, hnH => by
    unfold filterLoop
    have he := hne e (List.mem_cons_self e rest)
    rw [if_neg (by simp [he.1, he.2])]
    rw [if_neg (by
      simp only [Bool.or_eq_true, List.contains, List.elem_iff, not_or]
      exact ⟨by simpa using hnT e (List.mem_cons_self e rest),
             by simpa using hnH e (List.mem_cons_self e rest)⟩)]
    congr 1
    apply filterLoop_id rest _ _
      (fun x hx => hne x (List.mem_cons_of_mem e hx))
      (List.Pairwise.of_cons hpt) (List.Pairwise.of_cons hph)
    · intro x hx
      simp only [List.mem_append, List.mem_singleton, not_or]
      exact ⟨hnT x (List.mem_cons_of_mem e hx),
             Ne.symm ((List.pairwise_cons.1 hpt).1 x hx)⟩
    · intro x hx
      simp only [List.mem_append, List.mem_singleton, not_or]
      exact ⟨hnH x (List.mem_cons_of_mem e hx),
             Ne.symm ((List.pairwise_cons.1 hph).1 x hx)⟩

/-! ## Lemmas about `url_to_index` (lines 564-571) -/

theorem lastIdxFrom_eq_none (base u : String) :
    ∀ (l : List TocEntry) (i : Nat),
      (∀ e ∈ l, urljoin base e.href ≠ u) → lastIdxFrom base u l i = none
  | [], _, _ => rfl
  | e :: es, i, h => by
    unfold lastIdxFrom
    rw [lastIdxFrom_eq_none base u es (i + 1)
      (fun x hx => h x (List.mem_cons_of_mem e hx))]
    simp [h e (List.mem_cons_self e es)]

theorem lastIdxFrom_eq_some (base : String) :
    ∀ (l : List TocEntry) (i j : Nat) (hj : j < l.length) (u : String),
      (l.map (fun e => urljoin base e.href)).Nodup →
      urljoin base (l.get ⟨j, hj⟩).href = u →
      lastIdxFrom base u l i = some (i + j)
  | [], _, j, hj, _, _, _ => absurd hj (by simp)
  | e :: es, i, 0, _, u, hnd, hu => by
    have hnd2 : (∀ x ∈ es, ¬urljoin base x.href = urljoin base e.href)
        ∧ (List.map (fun e => urljoin base e.href) es).Nodup := by
      simpa using hnd
    have hu' : urljoin base e.href = u := hu
    subst hu'
    unfold lastIdxFrom
    rw [lastIdxFrom_eq_none base _ es (i + 1) (fun x hx => hnd2.1 x hx)]
    simp
  | e :: es, i, j + 1, hj, u, hnd, hu => by
    have hnd2 : (∀ x ∈ es, ¬urljoin base x.href = urljoin base e.href)
        ∧ (List.map (fun e => urljoin base e.href) es).Nodup := by
      simpa using hnd
    have hj' : j < es.length := by simpa using hj
    have hu' : urljoin base (es.get ⟨j, hj'⟩).href = u := hu
    have ih := lastIdxFrom_eq_some base es (i + 1) j hj' u hnd2.2 hu'
    unfold lastIdxFrom
    rw [ih]
    exact congrArg some (by omega)

/-! ## The fetch-phase/sort composition -/

theorem scrape_sorted_run (fetch : String → Option Doc)
    (ri : String → Option String) (base : String) (ft order : List TocEntry)
    (v0 : List String) (hperm : order.Perm ft) (hnd : ft.Nodup)
    (hne : ∀ e ∈ ft,
      (pyStrip e.title).isEmpty = false ∧ (pyStrip e.href).isEmpty = false)
    (hstrip : ∀ e ∈ ft, pyStrip e.href = e.href)
    (hurls : (ft.map (fun e => urljoin base e.href)).Nodup) :
    ∃ c : TocEntry → String,
      pySortByKey (fun p => url_to_index base ft p.url)
          (run_tasks fetch ri base order ⟨v0, [], []⟩).pages
        = ft.map (fun e => mkPage base e (c e))
      ∧ ∀ e ∈ ft, fetch (finalUrl base e) = none →
          c e = placeholderContent (resolveUrl base e) := by
  have hndo : order.Nodup := (hperm.nodup_iff).2 hnd
  have hneo : ∀ e ∈ order,
      (pyStrip e.title).isEmpty = false ∧ (pyStrip e.href).isEmpty = false :=
    fun e he => hne e (hperm.mem_iff.1 he)
  obtain ⟨c, hpages, hph⟩ :=
    run_tasks_pages fetch ri base order ⟨v0, [], []⟩ hndo hneo
  refine ⟨c, ?_, fun e he hf => hph e (hperm.mem_iff.2 he) hf⟩
  set key : Page → Option Nat := fun p => url_to_index base ft p.url with hkey
  have keyg : ∀ e ∈ ft, ∀ s : String,
      key (mkPage base e s) = url_to_index base ft (resolveUrl base e) :=
    fun e _ s => rfl
  have keyval : ∀ (i : Fin ft.length),
      url_to_index base ft (resolveUrl base (ft.get i)) = some i.1 := by
    intro i
    have hmem : ft.get i ∈ ft := ft.get_mem i.1 i.2
    have hru : urljoin base (ft.get i).href = resolveUrl base (ft.get i) := by
      rw [resolveUrl, hstrip _ hmem]
    have h := lastIdxFrom_eq_some base ft 0 i.1 i.2
      (resolveUrl base (ft.get i)) hurls hru
    simpa [url_to_index] using h
  have tgtStrict : (ft.map (fun e => mkPage base e (c e))).Pairwise
      (fun p q => okeyLt (key p) (key q) = true) := by
    rw [List.pairwise_map]
    refine List.pairwise_iff_get.2 (fun i j hij => ?_)
    rw [keyg _ (ft.get_mem i.1 i.2) _, keyg _ (ft.get_mem j.1 j.2) _, keyval i, keyval j]
    simpa [okeyLt] using hij
  have hsortperm : (pySortByKey key
      (run_tasks fetch ri base order ⟨v0, [], []⟩).pages).Perm
      (ft.map (fun e => mkPage base e (c e))) := by
    refine (pySortByKey_perm key _).trans ?_
    rw [hpages]
    simpa using hperm.map (fun e => mkPage base e (c e))
  have sortedLe := pySortByKey_pairwise key
    (run_tasks fetch ri base order ⟨v0, [], []⟩).pages
  have tgtNe : (ft.map (fun e => mkPage base e (c e))).Pairwise
      (fun p q => key p ≠ key q) :=
    tgtStrict.imp (fun h => by
      intro he
      rw [he] at h
      have := okeyLt_asymm h
      simp [h] at this)
  have sortedNe : (pySortByKey key
      (run_tasks fetch ri base order ⟨v0, [], []⟩).pages).Pairwise
      (fun p q => key p ≠ key q) :=
    ((hsortperm.pairwise_iff (fun h => Ne.symm h)).2 tgtNe)
  have sortedStrict : (pySortByKey key
      (run_tasks fetch ri base order ⟨v0, [], []⟩).pages).Pairwise
      (fun p q => okeyLt (key p) (key q) = true) := by
    refine List.pairwise_iff_get.2 (fun i j hij => ?_)
    exact okeyLt_of_not_lt_of_ne
      (List.pairwise_iff_get.1 sortedLe i j hij)
      (List.pairwise_iff_get.1 sortedNe i j hij)
  exact eq_of_perm_of_strictSorted key hsortperm sortedStrict tgtStrict

/-! ## Lemmas about `extract_toc` -/

theorem startsWithAny_append (s : String) (ps qs : List String) :
    startsWithAny s (ps ++ qs) = (startsWithAny s ps || startsWithAny s qs) := by
  simp [startsWithAny, List.any_append]

theorem tocLoop_entries :
    ∀ (anchors : List (Node × List Node)) (seen : List String),
      ∀ e ∈ tocLoop anchors seen,
        e.title ≠ "" ∧ e.href ≠ ""
          ∧ startsWithAny e.href ["#", "http"] = false
  | [], _ => by simp [tocLoop]
  | (a, anc) :: rest, seen => by
    unfold tocLoop
    cases hh : getAttr a "href" with
    | none => exact tocLoop_entries rest seen
    | some href =>
      dsimp only
      by_cases h1 : href.isEmpty = true
      · rw [if_pos h1]
        exact tocLoop_entries rest seen
      · rw [if_neg h1]
        by_cases h2 : startsWithAny href ["#", "http"] = true
        · rw [if_pos h2]
          exact tocLoop_entries rest seen
        · rw [if_neg h2]
          by_cases h3 : ((getTextStrip a).isEmpty || seen.contains href) = true
          · rw [if_pos h3]
            exact tocLoop_entries rest seen
          · rw [if_neg h3]
            intro e he
            rcases List.mem_cons.1 he with rfl | he'
            · refine ⟨?_, ?_, by simpa using h2⟩
              · intro ht
                have ht' : getTextStrip a = "" := ht
                exact h3 (by rw [ht']; rfl)
              · intro ht
                have ht' : href = "" := ht
                exact h1 (by rw [ht']; rfl)
            · exact tocLoop_entries rest (seen ++ [href]) e he'

theorem tocLoop_hrefs_dedup :
    ∀ (anchors : List (Node × List Node)) (seen : List String),
      (tocLoop anchors seen).map TocEntry.href
        = dedupSeen (anchors.filterMap (fun x =>
            match getAttr x.1 "href" with
            | none => none
            | some href =>
              if href.isEmpty then none
              else if startsWithAny href ["#", "http"] then none
              else if (getTextStrip x.1).isEmpty then none
              else some href)) seen
  | [], _ => by simp [tocLoop, dedupSeen]
  | (a, anc) :: rest, seen => by
    unfold tocLoop
    rw [List.filterMap_cons]
    cases hh : getAttr a "href" with
    | none => exact tocLoop_hrefs_dedup rest seen
    | some href =>
      dsimp only
      by_cases h1 : href.isEmpty = true
      · simp only [if_pos h1]
        exact tocLoop_hrefs_dedup rest seen
      · simp only [if_neg h1]
        by_cases h2 : startsWithAny href ["#", "http"] = true
        · simp only [if_pos h2]
          exact tocLoop_hrefs_dedup rest seen
        · simp only [if_neg h2]
          by_cases h3 : (getTextStrip a).isEmpty = true
          · simp only [if_pos h3,
              if_pos (show ((getTextStrip a).isEmpty || seen.contains href) = true
                by simp [h3])]
            exact tocLoop_hrefs_dedup rest seen
          · simp only [if_neg h3]
            by_cases h4 : seen.contains href = true
            · have hor : ((getTextStrip a).isEmpty || seen.contains href) = true := by
                simp only [Bool.or_eq_true]
                exact Or.inr h4
              simp only [if_pos hor]
              unfold dedupSeen
              simp only [if_pos h4]
              exact tocLoop_hrefs_dedup rest seen
            · have hor : ¬((getTextStrip a).isEmpty || seen.contains href) = true := by
                simp only [Bool.or_eq_true]
                rintro (hx | hx)
                · exact h3 hx
                · exact h4 hx
              simp only [if_neg hor]
              unfold dedupSeen
              simp only [if_neg h4, List.map_cons]
              rw [tocLoop_hrefs_dedup rest (seen ++ [href])]

theorem dedupSeen_nodup :
    ∀ (l seen : List String),
      (dedupSeen l seen).Nodup ∧ ∀ x ∈ dedupSeen l seen, x ∉ seen
  | [], _ => by simp [dedupSeen]
  | h :: t, seen => by
    unfold dedupSeen
    by_cases hc : seen.contains h = true
    · rw [if_pos hc]
      exact dedupSeen_nodup t seen
    · rw [if_neg hc]
      obtain ⟨hnd, hnin⟩ := dedupSeen_nodup t (seen ++ [h])
      refine ⟨List.nodup_cons.2 ⟨?_, hnd⟩, ?_⟩
      · intro hmem
        exact hnin h hmem (List.mem_append_right _ (by simp))
      · intro x hx
        rcases List.mem_cons.1 hx with rfl | hx'
        · intro hmem
          exact hc (by simp [List.contains, List.elem_iff, hmem])
        · exact fun hmem => hnin x hx' (List.mem_append_left _ hmem)

theorem tocLoopFirst_eq_tocLoop :
    ∀ (anchors : List (Node × List Node)) (seen : List String),
      (anchors.all (fun x =>
        match getAttr x.1 "href" with
        | some h => !(startsWithAny h ["javascript:", "mailto:"])
        | none => true)) = true →
      tocLoopFirst anchors seen = tocLoop anchors seen
  | [], _, _ => rfl
  | (a, anc) :: rest, seen, hall => by
    rw [List.all_cons, Bool.and_eq_true] at hall
    unfold tocLoopFirst tocLoop
    cases hh : getAttr a "href" with
    | none => exact tocLoopFirst_eq_tocLoop rest seen hall.2
    | some href =>
      dsimp only
      have hjm : startsWithAny href ["javascript:", "mailto:"] = false := by
        have := hall.1
        rw [hh] at this
        simpa using this
      have hpref : startsWithAny href ["#", "http", "javascript:", "mailto:"]
          = startsWithAny href ["#", "http"] := by
        have : (["#", "http", "javascript:", "mailto:"] : List String)
            = ["#", "http"] ++ ["javascript:", "mailto:"] := rfl
        rw [this, startsWithAny_append, hjm, Bool.or_false]
      rw [hpref]
      by_cases h1 : href.isEmpty = true
      · rw [if_pos h1, if_pos h1]
        exact tocLoopFirst_eq_tocLoop rest seen hall.2
      · rw [if_neg h1, if_neg h1]
        by_cases h2 : startsWithAny href ["#", "http"] = true
        · rw [if_pos h2, if_pos h2]
          exact tocLoopFirst_eq_tocLoop rest seen hall.2
        · rw [if_neg h2, if_neg h2]
          by_cases h3 : ((getTextStrip a).isEmpty || seen.contains href) = true
          · rw [if_pos h3, if_pos h3]
            exact tocLoopFirst_eq_tocLoop rest seen hall.2
          · rw [if_neg h3, if_neg h3]
            rw [tocLoopFirst_eq_tocLoop rest (seen ++ [href]) hall.2]

/-! ## Lemmas about the cleanup pass with no known title -/

mutual

theorem cleanNode_none_eq :
    ∀ n : Node, cleanNode none n = keepNode (fun m => !removedByStep5 none m) n
  | .element t a cs => by
    unfold cleanNode keepNode
    rw [cleanForest_none_eq cs]
  | .text s => rfl

theorem cleanForest_none_eq :
    ∀ ns : List Node,
      cleanForest none ns = keepForest (fun m => !removedByStep5 none m) ns
  | [] => rfl
  | c :: cs => by
    unfold cleanForest keepForest
    rcases h : removedByStep5 none c with _ | _
    · simp only [h, Bool.not_false, if_true, Bool.false_eq_true, if_false]
      rw [cleanNode_none_eq c, cleanForest_none_eq cs]
    · simp only [h, Bool.not_true, if_true, Bool.false_eq_true, if_false]
      rw [cleanForest_none_eq cs]

end

theorem removedByStep5_none_badClass (m : Node)
    (h : removedByStep5 none m = true) : badClass m = true := by
  unfold removedByStep5 at h
  rcases ht : m.tag? with _ | t
  · rw [ht] at h
    simp at h
  · rw [ht] at h
    dsimp only at h
    by_cases h1 : (["nav", "div"] ++ headingTags).contains t = true
    · rw [if_pos h1] at h
      by_cases h2 : badClass m = true
      · exact h2
      · rw [if_neg h2] at h
        split at h <;> simp_all
    · rw [if_neg h1] at h
      exact absurd h (by simp)

/-! ## Lemmas about `_similar_text`'s resilience -/

theorem similar_text_not_similar (v w : PyVal)
    (h : v.truthy = false ∨ w.truthy = false
      ∨ normalize_text v.toStr = "" ∨ normalize_text w.toStr = "") :
    similar_text v w = false := by
  unfold similar_text
  by_cases ht : (!v.truthy || !w.truthy) = true
  · rw [if_pos ht]
  · rw [if_neg ht]
    rcases h with h | h | h | h
    · exact absurd (by simp [h]) ht
    · exact absurd (by simp [h]) ht
    · have he : (normalize_text v.toStr).isEmpty = true := by rw [h]; rfl
      rw [if_pos (by simp [he])]
    · have he : (normalize_text w.toStr).isEmpty = true := by rw [h]; rfl
      rw [if_pos (by simp [he])]

/-! ## Claim theorems -/

/-- C1 (amended): after all worker tasks complete, the pages are sorted
    by the position of their resolved URL in the deduplicated TOC
    (unmatched URLs last, stably); provided the deduplicated entries'
    hrefs carry no surrounding whitespace and their resolved absolute
    URLs are pairwise distinct, the assembled page order equals the
    deduplicated TOC order for every completion permutation. -/
theorem toc_order_restored (fetch : String → Option Doc)
    (ri : String → Option String) (base : String) (toc order : List TocEntry)
    (v0 : List String) (hperm : order.Perm (filter_toc toc))
    (hstrip : ∀ e ∈ filter_toc toc, pyStrip e.href = e.href)
    (hurls : ((filter_toc toc).map (fun e => urljoin base e.href)).Nodup) :
    (scrape_phase fetch ri base toc order v0).map Page.url
      = (filter_toc toc).map (resolveUrl base) := by
  obtain ⟨c, heq, _⟩ := scrape_sorted_run fetch ri base (filter_toc toc) order v0
    hperm (filter_toc_entry_nodup toc) (filterLoop_props toc [] []) hstrip hurls
  show (pySortByKey (fun p => url_to_index base (filter_toc toc) p.url)
      (run_tasks fetch ri base order ⟨v0, [], []⟩).pages).map Page.url = _
  rw [heq, List.map_map]
  rfl

/-- C1 witness: a two-entry TOC with distinct resolved URLs, run in
    reversed completion order, still assembles in TOC order. -/
theorem toc_order_restored_witness :
    ([⟨"B", "b", 0⟩, ⟨"A", "a", 0⟩] : List TocEntry).Perm
        (filter_toc [⟨"A", "a", 0⟩, ⟨"B", "b", 0⟩])
    ∧ (∀ e ∈ filter_toc [⟨"A", "a", 0⟩, ⟨"B", "b", 0⟩], pyStrip e.href = e.href)
    ∧ ((filter_toc [⟨"A", "a", 0⟩, ⟨"B", "b", 0⟩]).map
        (fun e => urljoin "http://s" e.href)).Nodup
    ∧ (scrape_phase (fun _ => none) (fun _ => none) "http://s"
        [⟨"A", "a", 0⟩, ⟨"B", "b", 0⟩] [⟨"B", "b", 0⟩, ⟨"A", "a", 0⟩] []).map
          Page.url
      = (filter_toc [⟨"A", "a", 0⟩, ⟨"B", "b", 0⟩]).map (resolveUrl "http://s") := by
  refine ⟨by decide, by decide, by decide, ?_⟩
  exact toc_order_restored (fun _ => none) (fun _ => none) "http://s"
    [⟨"A", "a", 0⟩, ⟨"B", "b", 0⟩] [⟨"B", "b", 0⟩, ⟨"A", "a", 0⟩] []
    (by decide) (by decide) (by decide)

/-- C1 counterexample: two raw hrefs (`a.html` and `./a.html`) that
    resolve to the same absolute URL both survive the dedup; under the
    completion order that finishes the second entry first, the sorted
    page order (B before A) differs from the deduplicated TOC order
    (A before B), so the claim's universally quantified conclusion
    fails. -/
theorem toc_order_counterexample :
    ([⟨"B", "./a.html", 0⟩, ⟨"A", "a.html", 0⟩] : List TocEntry).Perm
        (filter_toc [⟨"A", "a.html", 0⟩, ⟨"B", "./a.html", 0⟩])
    ∧ (scrape_phase (fun _ => none) (fun _ => none) "http://s"
        [⟨"A", "a.html", 0⟩, ⟨"B", "./a.html", 0⟩]
        [⟨"B", "./a.html", 0⟩, ⟨"A", "a.html", 0⟩] []).map Page.title
      = ["B", "A"]
    ∧ (filter_toc [⟨"A", "a.html", 0⟩, ⟨"B", "./a.html", 0⟩]).map
        (fun e => pyStrip e.title) = ["A", "B"] :=
  ⟨by decide, by decide, by decide⟩

/-- C2 (amended): the TOC dedup is by stripped title and stripped RAW
    href (first occurrence wins, order preserved as a sublist), not by
    resolved absolute URL; and the VisitedSet does NOT bound network
    requests to one per URL: when two retained entries resolve to the
    same absolute URL and both tasks' membership checks run before
    either insertion — a genuine pool schedule, since the check and the
    insertion straddle the unlocked network call — the URL is requested
    twice and both tasks record fully processed (non-placeholder)
    pages, even though every fetch succeeds. -/
theorem dedup_by_raw_href_and_visited_race (toc : List TocEntry)
    (fetch : String → Option Doc) (ri : String → Option String) (base : String)
    (e1 e2 : TocEntry) (v0 : List String) (d : Doc)
    (h1t : (pyStrip e1.title).isEmpty = false)
    (h1h : (pyStrip e1.href).isEmpty = false)
    (h2t : (pyStrip e2.title).isEmpty = false)
    (h2h : (pyStrip e2.href).isEmpty = false)
    (hsame : finalUrl base e2 = finalUrl base e1)
    (hnv : finalUrl base e1 ∉ v0)
    (hf : fetch (finalUrl base e1) = some d) :
    ((filter_toc toc).map (fun e => pyStrip e.title)).Nodup
    ∧ ((filter_toc toc).map (fun e => pyStrip e.href)).Nodup
    ∧ List.Sublist (filter_toc toc) toc
    ∧ List.count (finalUrl base e1)
        (taskPhase2 fetch ri base
          (taskPhase2 fetch ri base ⟨v0, [], []⟩ e1
            (taskCheck base ⟨v0, [], []⟩ e1))
          e2 (taskCheck base ⟨v0, [], []⟩ e2)).requests = 2
    ∧ (taskPhase2 fetch ri base
        (taskPhase2 fetch ri base ⟨v0, [], []⟩ e1
          (taskCheck base ⟨v0, [], []⟩ e1))
        e2 (taskCheck base ⟨v0, [], []⟩ e2)).pages
      = [mkPage base e1 (process_page_content ri d (resolveUrl base e1) none),
         mkPage base e2 (process_page_content ri d (resolveUrl base e2) none)] := by
  have hc1 : taskCheck base (⟨v0, [], []⟩ : ScrapeSt) e1 = false := by
    unfold taskCheck
    cases h : (v0 : List String).contains (finalUrl base e1)
    · rfl
    · exact absurd (by simpa [List.contains, List.elem_iff] using h) hnv
  have hc2 : taskCheck base (⟨v0, [], []⟩ : ScrapeSt) e2 = false := by
    unfold taskCheck
    rw [hsame]
    cases h : (v0 : List String).contains (finalUrl base e1)
    · rfl
    · exact absurd (by simpa [List.contains, List.elem_iff] using h) hnv
  have hst1 : taskPhase2 fetch ri base ⟨v0, [], []⟩ e1
      (taskCheck base ⟨v0, [], []⟩ e1)
      = ⟨v0 ++ [finalUrl base e1], [finalUrl base e1],
         [mkPage base e1 (process_page_content ri d (resolveUrl base e1) none)]⟩ := by
    rw [hc1]
    unfold taskPhase2
    rw [if_neg (by simp [h1t, h1h]), if_neg (by simp), hf]
    rfl
  have hst2 : taskPhase2 fetch ri base
      (taskPhase2 fetch ri base ⟨v0, [], []⟩ e1 (taskCheck base ⟨v0, [], []⟩ e1))
      e2 (taskCheck base ⟨v0, [], []⟩ e2)
      = ⟨(v0 ++ [finalUrl base e1]) ++ [finalUrl base e1],
         [finalUrl base e1, finalUrl base e1],
         [mkPage base e1 (process_page_content ri d (resolveUrl base e1) none),
          mkPage base e2 (process_page_content ri d (resolveUrl base e2) none)]⟩ := by
    rw [hc2, hst1]
    unfold taskPhase2
    rw [if_neg (by simp [h2t, h2h]), if_neg (by simp), hsame, hf]
    rfl
  refine ⟨(filterLoop_titles toc [] []).1, (filterLoop_hrefs toc [] []).1,
    filterLoop_sublist toc [] [], ?_, ?_⟩
  · rw [hst2]
    simp [List.count_cons]
  · rw [hst2]

/-- C2 witness: the concrete race schedule — both checks before either
    insertion — on two entries resolving to `http://s/a.html`, with an
    always-succeeding fetch, requests the URL twice. -/
theorem dedup_by_raw_href_and_visited_race_witness :
    (finalUrl "http://s" (⟨"B", "./a.html", 0⟩ : TocEntry)
      = finalUrl "http://s" (⟨"A", "a.html", 0⟩ : TocEntry))
    ∧ (finalUrl "http://s" (⟨"A", "a.html", 0⟩ : TocEntry) ∉ ([] : List String))
    ∧ List.count (finalUrl "http://s" (⟨"A", "a.html", 0⟩ : TocEntry))
        (taskPhase2 (fun _ => some ⟨[]⟩) (fun _ => none) "http://s"
          (taskPhase2 (fun _ => some ⟨[]⟩) (fun _ => none) "http://s"
            ⟨[], [], []⟩ ⟨"A", "a.html", 0⟩
            (taskCheck "http://s" ⟨[], [], []⟩ ⟨"A", "a.html", 0⟩))
          ⟨"B", "./a.html", 0⟩
          (taskCheck "http://s" ⟨[], [], []⟩ ⟨"B", "./a.html", 0⟩)).requests
      = 2 := by
  refine ⟨by decide, by decide, ?_⟩
  exact (dedup_by_raw_href_and_visited_race [] (fun _ => some ⟨[]⟩)
    (fun _ => none) "http://s" ⟨"A", "a.html", 0⟩ ⟨"B", "./a.html", 0⟩ [] ⟨[]⟩
    (by decide) (by decide) (by decide) (by decide) (by decide) (by decide)
    rfl).2.2.2.1

/-- C2 counterexample: two entries resolving to the same absolute URL
    are NOT deduplicated (the dedup keys on the raw href), and the final
    document carries TWO pages for that URL (the second a placeholder),
    refuting both the resolved-URL dedup and the at-most-one-Page
    conclusion. -/
theorem dedup_counterexample :
    filter_toc [⟨"A", "a.html", 0⟩, ⟨"B", "./a.html", 0⟩]
      = [⟨"A", "a.html", 0⟩, ⟨"B", "./a.html", 0⟩]
    ∧ urljoin "http://s" "a.html" = urljoin "http://s" "./a.html"
    ∧ ((scrape_phase (fun _ => some ⟨[]⟩) (fun _ => none) "http://s"
        [⟨"A", "a.html", 0⟩, ⟨"B", "./a.html", 0⟩]
        [⟨"A", "a.html", 0⟩, ⟨"B", "./a.html", 0⟩] []).filter
        (fun p => p.url == "http://s/a.html")).length = 2 :=
  ⟨by decide, by decide, by decide⟩

/-- C3: given three retained TOC entries with distinct stripped
    titles/hrefs and distinct resolved URLs, where the fetch of entry 2
    fails, every completion order yields exactly 3 pages; the middle
    page is the placeholder carrying entry 2's URL, and the process
    exits 0 when rendering succeeds. -/
theorem partial_failure_three_pages (fetch : String → Option Doc)
    (ri : String → Option String) (base : String) (e1 e2 e3 : TocEntry)
    (order : List TocEntry) (v0 : List String)
    (hperm : order.Perm [e1, e2, e3])
    (hne : ∀ e ∈ [e1, e2, e3],
      (pyStrip e.title).isEmpty = false ∧ (pyStrip e.href).isEmpty = false)
    (hT : ([e1, e2, e3].map (fun e => pyStrip e.title)).Nodup)
    (hH : ([e1, e2, e3].map (fun e => pyStrip e.href)).Nodup)
    (hstrip : ∀ e ∈ [e1, e2, e3], pyStrip e.href = e.href)
    (hurls : ([e1, e2, e3].map (fun e => urljoin base e.href)).Nodup)
    (hf2 : fetch (finalUrl base e2) = none) :
    (scrape_phase fetch ri base [e1, e2, e3] order v0).length = 3
    ∧ (scrape_phase fetch ri base [e1, e2, e3] order v0)[1]?
      = some (mkPage base e2 (placeholderContent (resolveUrl base e2)))
    ∧ main_exit (scrape_phase fetch ri base [e1, e2, e3] order v0) true = 0 := by
  have hid : filter_toc [e1, e2, e3] = [e1, e2, e3] := by
    apply filterLoop_id [e1, e2, e3] [] [] hne
    · exact (List.pairwise_map.1 hT).imp (fun h => h)
    · exact (List.pairwise_map.1 hH).imp (fun h => h)
    · simp
    · simp
  have hnd : ([e1, e2, e3] : List TocEntry).Nodup := hT.of_map
  obtain ⟨c, heq, hph⟩ := scrape_sorted_run fetch ri base [e1, e2, e3] order v0
    hperm hnd hne hstrip hurls
  have hsc : scrape_phase fetch ri base [e1, e2, e3] order v0
      = [mkPage base e1 (c e1), mkPage base e2 (c e2), mkPage base e3 (c e3)] := by
    show pySortByKey (fun p => url_to_index base (filter_toc [e1, e2, e3]) p.url)
        (run_tasks fetch ri base order ⟨v0, [], []⟩).pages = _
    rw [hid, heq]
    rfl
  have hc2 : c e2 = placeholderContent (resolveUrl base e2) :=
    hph e2 (by simp) hf2
  rw [hsc, hc2]
  exact ⟨rfl, rfl, rfl⟩

/-- C3 witness: the concrete three-entry scenario with the middle fetch
    failing. -/
theorem partial_failure_three_pages_witness :
    ((fun u : String => if u == "http://s/b" then none else some (⟨[]⟩ : Doc))
        (finalUrl "http://s" ⟨"B", "b", 0⟩) = none)
    ∧ (scrape_phase
        (fun u => if u == "http://s/b" then none else some ⟨[]⟩)
        (fun _ => none) "http://s"
        [⟨"A", "a", 0⟩, ⟨"B", "b", 0⟩, ⟨"C", "c", 0⟩]
        [⟨"C", "c", 0⟩, ⟨"A", "a", 0⟩, ⟨"B", "b", 0⟩] []).length = 3
    ∧ (scrape_phase
        (fun u => if u == "http://s/b" then none else some ⟨[]⟩)
        (fun _ => none) "http://s"
        [⟨"A", "a", 0⟩, ⟨"B", "b", 0⟩, ⟨"C", "c", 0⟩]
        [⟨"C", "c", 0⟩, ⟨"A", "a", 0⟩, ⟨"B", "b", 0⟩] [])[1]?
      = some (mkPage "http://s" ⟨"B", "b", 0⟩
          (placeholderContent (resolveUrl "http://s" ⟨"B", "b", 0⟩)))
    ∧ main_exit (scrape_phase
        (fun u => if u == "http://s/b" then none else some ⟨[]⟩)
        (fun _ => none) "http://s"
        [⟨"A", "a", 0⟩, ⟨"B", "b", 0⟩, ⟨"C", "c", 0⟩]
        [⟨"C", "c", 0⟩, ⟨"A", "a", 0⟩, ⟨"B", "b", 0⟩] []) true = 0 := by
  have h := partial_failure_three_pages
    (fun u => if u == "http://s/b" then none else some ⟨[]⟩) (fun _ => none)
    "http://s" ⟨"A", "a", 0⟩ ⟨"B", "b", 0⟩ ⟨"C", "c", 0⟩
    [⟨"C", "c", 0⟩, ⟨"A", "a", 0⟩, ⟨"B", "b", 0⟩] []
    (by decide) (by decide) (by decide) (by decide) (by decide) (by decide) rfl
  exact ⟨rfl, h.1, h.2.1, h.2.2⟩

/-- C4 (amended): `get_page` inserts the URL into the VisitedSet ONLY on
    a successful fetch; an already-visited URL is never re-requested,
    but a failed fetch leaves the VisitedSet unchanged (so the URL can
    be requested again later). -/
theorem visited_on_success_only (fetch : String → Option Doc) (base : String)
    (st : ScrapeSt) (url0 : String) :
    ((normUrl base url0) ∈ st.visited → get_page fetch base st url0 = (none, st))
    ∧ ((normUrl base url0) ∉ st.visited → fetch (normUrl base url0) = none →
        (get_page fetch base st url0).2.visited = st.visited
        ∧ (get_page fetch base st url0).2.requests
          = st.requests ++ [normUrl base url0]
        ∧ (get_page fetch base st url0).1 = none)
    ∧ ((normUrl base url0) ∉ st.visited →
        ∀ d, fetch (normUrl base url0) = some d →
        (get_page fetch base st url0).2.visited
          = st.visited ++ [normUrl base url0]
        ∧ (get_page fetch base st url0).2.requests
          = st.requests ++ [normUrl base url0]
        ∧ (get_page fetch base st url0).1 = some d) := by
  refine ⟨?_, ?_, ?_⟩
  · intro hmem
    unfold get_page
    rw [if_pos (by simpa [List.contains, List.elem_iff] using hmem)]
  · intro hnv hf
    have hc : ¬st.visited.contains (normUrl base url0) = true := by
      simpa [List.contains, List.elem_iff] using hnv
    have hgp : get_page fetch base st url0
        = (none, { st with requests := st.requests ++ [normUrl base url0] }) := by
      unfold get_page
      rw [if_neg hc, hf]
    rw [hgp]
    exact ⟨rfl, rfl, rfl⟩
  · intro hnv d hf
    have hc : ¬st.visited.contains (normUrl base url0) = true := by
      simpa [List.contains, List.elem_iff] using hnv
    have hgp : get_page fetch base st url0
        = (some d, { st with visited := st.visited ++ [normUrl base url0],
                             requests := st.requests ++ [normUrl base url0] }) := by
      unfold get_page
      rw [if_neg hc, hf]
    rw [hgp]
    exact ⟨rfl, rfl, rfl⟩

/-- C4 witness: a failed fetch leaves the VisitedSet empty and logs the
    request. -/
theorem visited_on_success_only_witness :
    ("http://s/a" ∉ (⟨[], [], []⟩ : ScrapeSt).visited)
    ∧ (get_page (fun _ => none) "http://s" ⟨[], [], []⟩ "http://s/a").2.visited
      = []
    ∧ (get_page (fun _ => none) "http://s" ⟨[], [], []⟩ "http://s/a").2.requests
      = ["http://s/a"] := by
  have h := (visited_on_success_only (fun _ => none) "http://s"
    ⟨[], [], []⟩ "http://s/a").2.1 (by decide) rfl
  exact ⟨by decide, h.1, h.2.1⟩

/-- C4 counterexample: after a failed fetch the URL is NOT in the
    VisitedSet, and a second call issues a second network request, so
    "inserted on failure, never re-requested" is false. -/
theorem visited_on_failure_counterexample :
    (get_page (fun _ => none) "http://s" ⟨[], [], []⟩ "http://s/a").2.visited = []
    ∧ List.count "http://s/a"
        (get_page (fun _ => none) "http://s"
          (get_page (fun _ => none) "http://s" ⟨[], [], []⟩ "http://s/a").2
          "http://s/a").2.requests = 2 :=
  ⟨rfl, by decide⟩

/-- C5 (code bug): the `-w` (`--workers`) CLI option is parsed but never
    handed to the scraper; the constructed pool width is always the
    default 3, whatever `args.workers` says. -/
theorem workers_option_ignored :
    (∀ args : CliArgs, main_pool_width args = 3)
    ∧ main_pool_width ⟨"http://s", "gitbook.pdf", none, 5, false, false, none⟩
      ≠ 5 :=
  ⟨fun _ => rfl, by decide⟩

/-- C6 (amended): the effective `extract_toc` skips links with missing
    or empty hrefs, hrefs starting with `#` or `http` (but NOT
    `javascript:`/`mailto:`), and empty titles; it emits at most one
    entry per raw href, first occurrence winning, in document order. -/
theorem extract_toc_entries (d : Doc) :
    (∀ e ∈ extract_toc d,
      e.title ≠ "" ∧ e.href ≠ "" ∧ startsWithAny e.href ["#", "http"] = false)
    ∧ (extract_toc d).map TocEntry.href = dedupKeepFirst (candHrefs d)
    ∧ ((extract_toc d).map TocEntry.href).Nodup := by
  unfold extract_toc
  cases hn : findNav d with
  | none =>
    refine ⟨by simp, ?_, by simp⟩
    have : navAnchors d = [] := by
      unfold navAnchors
      rw [hn]
    simp [candHrefs, this, dedupKeepFirst, dedupSeen]
  | some nv =>
    refine ⟨tocLoop_entries (navAnchors d) [], ?_, ?_⟩
    · rw [tocLoop_hrefs_dedup (navAnchors d) []]
      rfl
    · rw [tocLoop_hrefs_dedup (navAnchors d) []]
      exact (dedupSeen_nodup _ []).1

/-- C6 witness: a well-formed nav link is emitted with the entry
    properties. -/
theorem extract_toc_entries_witness :
    ((⟨"A", "a.html", 2⟩ : TocEntry) ∈ extract_toc
      ⟨[.element "nav" [] [.element "ul" [] [.element "li" []
        [.element "a" [("href", "a.html")] [.text "A"]]]]]⟩)
    ∧ (⟨"A", "a.html", 2⟩ : TocEntry).title ≠ ""
    ∧ (⟨"A", "a.html", 2⟩ : TocEntry).href ≠ ""
    ∧ startsWithAny (⟨"A", "a.html", 2⟩ : TocEntry).href ["#", "http"] = false :=
  ⟨by decide,
   (extract_toc_entries ⟨[.element "nav" [] [.element "ul" [] [.element "li" []
      [.element "a" [("href", "a.html")] [.text "A"]]]]]⟩).1
     ⟨"A", "a.html", 2⟩ (by decide)⟩

/-- C6 counterexample: a `javascript:` link inside the nav is NOT
    skipped by the effective `extract_toc` (it only filters `#` and
    `http` prefixes), refuting the claimed javascript/mailto
    filtering. -/
theorem extract_toc_javascript_counterexample :
    extract_toc ⟨[.element "nav" []
      [.element "a" [("href", "javascript:v")] [.text "T"]]]⟩
      = [⟨"T", "javascript:v", 0⟩]
    ∧ startsWithAny "javascript:v" ["javascript:"] = true :=
  ⟨by decide, by decide⟩

/-- C7 (amended): for a successfully fetched page the crawl invokes
    content extraction with `title=None` (the TOC title is deliberately
    not passed, line 450); with no known title the cleanup removes
    exactly the elements matching the class heuristics, and no heading
    is removed by title similarity. -/
theorem extraction_invoked_with_none (fetch : String → Option Doc)
    (ri : String → Option String) (base : String) (st st' : ScrapeSt)
    (item : TocEntry) (d : Doc)
    (h1 : (pyStrip item.title).isEmpty = false)
    (h2 : (pyStrip item.href).isEmpty = false)
    (hf : get_page fetch base st (resolveUrl base item) = (some d, st')) :
    download_page fetch ri base st item
      = { st' with pages := st'.pages ++
          [mkPage base item
            (process_page_content ri d (resolveUrl base item) none)] }
    ∧ (∀ n : Node, cleanNode none n = keepNode (fun m => !removedByStep5 none m) n)
    ∧ (∀ m : Node, removedByStep5 none m = true → badClass m = true) := by
  refine ⟨?_, cleanNode_none_eq, removedByStep5_none_badClass⟩
  unfold download_page
  rw [if_neg (by simp [h1, h2]), hf]

/-- C7 witness: a concrete successful fetch records exactly the
    `title=None` extraction result. -/
theorem extraction_invoked_with_none_witness :
    (pyStrip ("T" : String)).isEmpty = false
    ∧ download_page (fun _ => some (⟨[]⟩ : Doc)) (fun _ => none) "http://s"
        ⟨[], [], []⟩ ⟨"T", "a", 0⟩
      = { visited := ["http://s/a"], requests := ["http://s/a"],
          pages := [mkPage "http://s" ⟨"T", "a", 0⟩
            (process_page_content (fun _ => none) ⟨[]⟩
              (resolveUrl "http://s" ⟨"T", "a", 0⟩) none)] } := by
  have h := (extraction_invoked_with_none (fun _ => some ⟨[]⟩) (fun _ => none)
    "http://s" ⟨[], [], []⟩ ⟨["http://s/a"], ["http://s/a"], []⟩
    ⟨"T", "a", 0⟩ ⟨[]⟩ rfl rfl rfl).1
  exact ⟨rfl, h⟩

/-- C7 counterexample: a page whose `h1` text is `_similar_text`-equal
    to the TOC-supplied title "第一章" keeps that heading in the
    recorded content, because extraction is invoked with `None` instead
    of the TOC title. -/
theorem title_not_suppressed_counterexample :
    similar_text (.pstr "第 一 章") (.pstr "第一章") = true
    ∧ (download_page
        (fun _ => some ⟨[.element "article" []
          [.element "h1" [] [.text "第 一 章"], .element "p" [] [.text "x"]]]⟩)
        (fun _ => none) "http://s" ⟨[], [], []⟩ ⟨"第一章", "c.html", 0⟩).pages
      = [⟨"第一章", "http://s/c.html",
          "<article><h1>第 一 章</h1><p>x</p></article>", 0⟩] :=
  ⟨by decide, by decide⟩

/-- C8 (amended): title similarity holds on ("Chapter 3", "第三章") and
    fails on ("Chapter 3", "Chapter 4"); any falsy (absent/empty/zero)
    or empty-after-normalization input yields "not similar" — but a
    TRUTHY non-string input is `str()`-coerced and compared normally,
    not rejected. -/
theorem similar_text_behavior :
    similar_text (.pstr "Chapter 3") (.pstr "第三章") = true
    ∧ similar_text (.pstr "Chapter 3") (.pstr "Chapter 4") = false
    ∧ ∀ v w : PyVal,
        (v.truthy = false ∨ w.truthy = false
          ∨ normalize_text v.toStr = "" ∨ normalize_text w.toStr = "") →
        similar_text v w = false :=
  ⟨by decide, by decide, similar_text_not_similar⟩

/-- C8 witness: the absent (None) input yields "not similar". -/
theorem similar_text_behavior_witness :
    ((PyVal.pnone).truthy = false ∨ (PyVal.pstr "x").truthy = false
      ∨ normalize_text (PyVal.pnone).toStr = ""
      ∨ normalize_text (PyVal.pstr "x").toStr = "")
    ∧ similar_text .pnone (.pstr "x") = false :=
  ⟨Or.inl rfl, similar_text_behavior.2.2 .pnone (.pstr "x") (Or.inl rfl)⟩

/-- C8 counterexample: the non-string (integer) input 3 is truthy, gets
    `str()`-coerced, and compares SIMILAR to "3" — the claim demanded
    "not similar" for every non-string input. -/
theorem similar_text_nonstring_counterexample :
    similar_text (.pint 3) (.pstr "3") = true := by decide

/-- C9: the assembled document never has more pages than the
    deduplicated (final) TOC has entries, and every retained entry has a
    non-blank stripped title and href. -/
theorem pages_le_toc (fetch : String → Option Doc) (ri : String → Option String)
    (base : String) (toc order : List TocEntry) (v0 : List String)
    (hperm : order.Perm (filter_toc toc)) :
    (scrape_phase fetch ri base toc order v0).length ≤ (filter_toc toc).length
    ∧ ∀ e ∈ filter_toc toc,
        (pyStrip e.title).isEmpty = false ∧ (pyStrip e.href).isEmpty = false := by
  refine ⟨?_, filterLoop_props toc [] []⟩
  have h1 : (scrape_phase fetch ri base toc order v0).length
      = (run_tasks fetch ri base order ⟨v0, [], []⟩).pages.length :=
    (pySortByKey_perm (fun p => url_to_index base (filter_toc toc) p.url)
      (run_tasks fetch ri base order ⟨v0, [], []⟩).pages).length_eq
  rw [h1]
  have h2 := run_tasks_pages_le fetch ri base order ⟨v0, [], []⟩
  have h3 := hperm.length_eq
  simp only [show (⟨v0, [], []⟩ : ScrapeSt).pages = [] from rfl,
    List.length_nil] at h2
  omega

/-- C9 witness: one entry, one page. -/
theorem pages_le_toc_witness :
    ([⟨"A", "a", 0⟩] : List TocEntry).Perm (filter_toc [⟨"A", "a", 0⟩])
    ∧ (scrape_phase (fun _ => none) (fun _ => none) "http://s"
        [⟨"A", "a", 0⟩] [⟨"A", "a", 0⟩] []).length
      ≤ (filter_toc [⟨"A", "a", 0⟩]).length :=
  ⟨by decide,
   (pages_le_toc (fun _ => none) (fun _ => none) "http://s" [⟨"A", "a", 0⟩]
      [⟨"A", "a", 0⟩] [] (by decide)).1⟩

/-- C10 (amended): the two `extract_toc` routines agree on every
    document whose nav links contain no `javascript:` or `mailto:`
    href; they are NOT equivalent in general (see the counterexample),
    since only the first (shadowed) routine filters those schemes. -/
theorem extract_toc_routines_agree (d : Doc)
    (hjm : ((navAnchors d).all (fun x =>
      match getAttr x.1 "href" with
      | some h => !(startsWithAny h ["javascript:", "mailto:"])
      | none => true)) = true) :
    extract_toc_first d = extract_toc d := by
  unfold extract_toc_first extract_toc
  cases hn : findNav d with
  | none => rfl
  | some nv => exact tocLoopFirst_eq_tocLoop (navAnchors d) [] hjm

/-- C10 witness: on an ordinary nav document both routines yield the
    same TOC. -/
theorem extract_toc_routines_agree_witness :
    (((navAnchors ⟨[.element "nav" []
        [.element "a" [("href", "a.html")] [.text "A"]]]⟩).all (fun x =>
      match getAttr x.1 "href" with
      | some h => !(startsWithAny h ["javascript:", "mailto:"])
      | none => true)) = true)
    ∧ extract_toc_first ⟨[.element "nav" []
        [.element "a" [("href", "a.html")] [.text "A"]]]⟩
      = extract_toc ⟨[.element "nav" []
        [.element "a" [("href", "a.html")] [.text "A"]]]⟩ :=
  ⟨by decide,
   extract_toc_routines_agree ⟨[.element "nav" []
      [.element "a" [("href", "a.html")] [.text "A"]]]⟩ (by decide)⟩

/-- C10 counterexample: on a nav containing a `javascript:` link the
    first (shadowed) routine returns no entries while the second
    (effective) routine returns one, so the two routines do not compute
    the same sequence. -/
theorem extract_toc_routines_differ :
    extract_toc_first ⟨[.element "nav" []
      [.element "a" [("href", "javascript:v")] [.text "T"]]]⟩ = []
    ∧ extract_toc ⟨[.element "nav" []
      [.element "a" [("href", "javascript:v")] [.text "T"]]]⟩
      = [⟨"T", "javascript:v", 0⟩] :=
  ⟨by decide, by decide⟩

end G2P

